import Mathlib

/-!
Verification of the PyBB client library (src/PyBB.py) against its
natural-language specification.

The embedding translates the Python source shallowly:
* Python strings are `List Char` (`PyStr`).
* JSON values decoded by `json.loads` are the tagged union `JsonValue`;
  JSON numbers are modelled as integers (`Int`) — none of the verified
  claims concern non-integral numbers.  `datetime` objects produced by
  the coercion step are modelled as microseconds since the Unix epoch
  (`JsonValue.time`), the precision of Python's `datetime`; which wall
  clock renders them (local for `fromtimestamp`, the parsed fields for
  `strptime`) is irrelevant to every observation the program makes,
  which only ever treats them as points in time.  The
  `fromtimestamp(int(out) / 1000)` path is modelled bit-exactly: the
  Python 3 true division rounds to the nearest IEEE binary64, and
  `fromtimestamp` rounds once more computing the microsecond field, so
  the resulting instant can differ by one microsecond from the exact
  millisecond value (`pyFromtimestampUs`).
* `_ForumObjectBase.__getattr__` is `resolveF` (with explicit fuel,
  because the alias recursion in the source has no termination guard)
  and `resolve` (fuel `aliases.length + 1`, which is shown to be
  saturating: it returns `some` exactly on the inputs where the
  source recursion terminates, and `none` where it recurses forever).
* `Forum._setup` is `forumSetup`, a pure function of the responses the
  external HTTP collaborator would deliver, paired with the trace of
  network calls it issues.
-/

/-- Python strings, as lists of characters. -/
abbrev PyStr := List Char

/-- Shorthand for writing `PyStr` literals. -/
def pstr (s : String) : PyStr := s.data

/-- Numeric value of a decimal digit character. -/
def digitVal (c : Char) : Nat := c.toNat - 48

/-- Python `str.isdigit` restricted to ASCII decimal digits (the digit
class every verified claim is about; Unicode digit-class strings are
outside the model — on some of them, e.g. superscripts, the source
would even escape `coerce` with an uncaught `ValueError` from
`int()`).  Python returns `False` on the empty string. -/
def pyIsDigit (s : PyStr) : Bool := !s.isEmpty && s.all Char.isDigit

/-- Python `int(s)` on a string of decimal digits. -/
def digitsToInt (s : PyStr) : Nat := s.foldl (fun a c => a * 10 + digitVal c) 0

/-- The decimal digit character for `n % 10`. -/
def digitChar (n : Nat) : Char := Char.ofNat (48 + n % 10)

/-- Two-character zero-padded decimal rendering of `n % 100`. -/
def pad2 (n : Nat) : PyStr := [digitChar (n / 10), digitChar n]

/-- Four-character zero-padded decimal rendering of `n % 10000`. -/
def pad4 (n : Nat) : PyStr :=
  [digitChar (n / 1000), digitChar (n / 100), digitChar (n / 10), digitChar n]

/-- Six-character zero-padded decimal rendering of `n % 1000000`. -/
def pad6 (n : Nat) : PyStr :=
  [digitChar (n / 100000), digitChar (n / 10000), digitChar (n / 1000),
   digitChar (n / 100), digitChar (n / 10), digitChar n]

/-- Gregorian leap-year test, as Python's `calendar`/`datetime` use it. -/
def isLeap (y : Nat) : Bool := y % 4 == 0 && (y % 100 != 0 || y % 400 == 0)

/-- Length of a month, as `datetime` validates the day field. -/
def daysInMonth (y m : Nat) : Nat :=
  if m = 2 then (if isLeap y then 29 else 28)
  else if m = 4 ∨ m = 6 ∨ m = 9 ∨ m = 11 then 30
  else 31

/-- Days from 1970-01-01 to year `y`, month `m`, day `d` (proleptic
Gregorian, `y ≥ 1`); the standard civil-from-days conversion used to
express `datetime` values as an epoch offset. -/
def daysFromCivil (y m d : Nat) : Int :=
  let y' := if m ≤ 2 then y - 1 else y
  let era := y' / 400
  let yoe := y' % 400
  let mp := if 2 < m then m - 3 else m + 9
  let doy := (153 * mp + 2) / 5 + (d - 1)
  let doe := yoe * 365 + yoe / 4 - yoe / 100 + doy
  (era * 146097 + doe : Int) - 719468

/-- The UTC instant with the given calendar fields, as microseconds
since the Unix epoch (`f` is the microsecond field). -/
def utcInstantUs (y mo d h mi s f : Nat) : Int :=
  daysFromCivil y mo d * 86400000000 + ((h * 3600 + mi * 60 + s) * 1000000 + f : Nat)

/-- Inverse of `daysFromCivil`: calendar date of day number `z`
(days since 1970-01-01, any sign). -/
def civilFromDays (z : Int) : Int × Nat × Nat :=
  let z' := z + 719468
  let era := z'.fdiv 146097
  let doe := (z' - era * 146097).toNat
  let yoe := (doe - doe / 1460 + doe / 36524 - doe / 146096) / 365
  let doy := doe - (365 * yoe + yoe / 4 - yoe / 100)
  let mp := (5 * doy + 2) / 153
  let d := doy - (153 * mp + 2) / 5 + 1
  let m := if mp < 10 then mp + 3 else mp - 9
  (era * 400 + yoe + (if m ≤ 2 then 1 else 0), m, d)

/-- Decimal rendering of the year field (zero-padded to four digits, as
`datetime.__str__` renders in-range years). -/
def yearChars (y : Int) : PyStr :=
  if y < 0 then '-' :: pad4 (-y).toNat else pad4 y.toNat

/-- The character rendering `"Y-MM-DD HH:MM:SS[.ffffff]"` used by
Python's `datetime.__str__` (the fractional part is omitted when the
microsecond field is zero). -/
def dateTimeChars (y : Int) (m d sec f : Nat) : PyStr :=
  yearChars y ++ '-' :: (pad2 m ++ '-' :: (pad2 d ++ ' ' ::
    (pad2 (sec / 3600) ++ ':' :: (pad2 (sec / 60 % 60) ++ ':' ::
      (pad2 (sec % 60) ++ (if f = 0 then [] else '.' :: pad6 f))))))

/-- Python `str()` of a `datetime` modelled at `us` microseconds since
the epoch.  (`fromtimestamp` renders local-time fields; the rendered
digits may therefore differ from these UTC fields, but the shape —
dashes, space, colons — is identical in every timezone, and the digit
test in `__getattr__` is the only thing the program observes of it.) -/
def timeStr (us : Int) : PyStr :=
  let day := us.fdiv 86400000000
  let tod := (us - day * 86400000000).toNat
  dateTimeChars (civilFromDays day).1 (civilFromDays day).2.1 (civilFromDays day).2.2
    (tod / 1000000) (tod % 1000000)

/-- The generic JSON value model (spec §3), together with the
`datetime` values the coercion step produces. -/
inductive JsonValue where
  | null
  | bool (b : Bool)
  | num (n : Int)
  | str (s : PyStr)
  | arr (elems : List JsonValue)
  | obj (fields : List (PyStr × JsonValue))
  | time (us : Int)

/-- Python `str()` of a value, as far as `__getattr__` observes it.
Containers render with their opening bracket; the digit test (the only
use the source makes of this rendering) fails on any bracketed
rendering, so their interior is abbreviated. -/
def pyStr : JsonValue → PyStr
  | .null => pstr "None"
  | .bool true => pstr "True"
  | .bool false => pstr "False"
  | .num n => (toString n).data
  | .str s => s
  | .arr _ => pstr "[...]"
  | .obj _ => pstr "\x7b...\x7d"
  | .time us => timeStr us

/-- Consume one expected literal character. -/
def expectChar (c : Char) : PyStr → Option PyStr
  | x :: s => if x = c then some s else none
  | [] => none

/-- Consume one expected literal letter, case-insensitively:
CPython compiles `strptime` formats with `re.IGNORECASE`, so the
literal `T` and `Z` also match their lowercase forms. -/
def expectCharCI (c c' : Char) : PyStr → Option PyStr
  | x :: s => if x = c ∨ x = c' then some s else none
  | [] => none

/-- Consume exactly `n` decimal digits, accumulating their value
(CPython's `%Y` pattern is `\d\d\d\d`). -/
def readNDigits : Nat → Nat → PyStr → Option (Nat × PyStr)
  | 0, acc, s => some (acc, s)
  | _ + 1, _, [] => none
  | n + 1, acc, c :: s =>
    if c.isDigit then readNDigits n (acc * 10 + digitVal c) s else none

/-- Consume a one-or-two digit field, preferring two digits, with a
value range for the two-digit form and a lower bound for the one-digit
form.  This is CPython's ordered-alternative field pattern (e.g. `%m`
is `1[0-2]|0[1-9]|[1-9]`); because every literal following a field in
the format is a non-digit, the regex backtracking can never rescue a
two-digit match, so this greedy reading is equivalent. -/
def read2or1 (lo2 hi2 lo1 : Nat) : PyStr → Option (Nat × PyStr)
  | c1 :: c2 :: rest =>
    if c1.isDigit && c2.isDigit && decide (lo2 ≤ 10 * digitVal c1 + digitVal c2)
        && decide (10 * digitVal c1 + digitVal c2 ≤ hi2) then
      some (10 * digitVal c1 + digitVal c2, rest)
    else if c1.isDigit && decide (lo1 ≤ digitVal c1) then
      some (digitVal c1, c2 :: rest)
    else none
  | [c1] =>
    if c1.isDigit && decide (lo1 ≤ digitVal c1) then some (digitVal c1, []) else none
  | [] => none

/-- Consume up to `n` further fraction digits (CPython's `%f` is
`[0-9]{1,6}`), returning accumulated value, digit count and rest. -/
def grabFrac : Nat → Nat → Nat → PyStr → (Nat × Nat × PyStr)
  | 0, acc, cnt, s => (acc, cnt, s)
  | _ + 1, acc, cnt, [] => (acc, cnt, [])
  | n + 1, acc, cnt, c :: s =>
    if c.isDigit then grabFrac n (acc * 10 + digitVal c) (cnt + 1) s
    else (acc, cnt, c :: s)

/-- Consume the `%f` field: one to six digits, right-padded with zeros
to a microsecond count, as CPython does (`s += "0" * (6 - len(s))`). -/
def readFrac : PyStr → Option (Nat × PyStr)
  | c :: s =>
    if c.isDigit then
      match grabFrac 5 (digitVal c) 1 s with
      | (v, cnt, rest) => some (v * 10 ^ (6 - cnt), rest)
    else none
  | [] => none

/-- The field-matching part of
`datetime.strptime(s, "%Y-%m-%dT%H:%M:%S.%fZ")`: CPython's compiled
regex for that format, applied to the whole string (a partial match
raises `ValueError`, hence the final emptiness check). -/
def parseIsoZ (s : PyStr) : Option (Nat × Nat × Nat × Nat × Nat × Nat × Nat) := do
  let (y, s) ← readNDigits 4 0 s
  let s ← expectChar '-' s
  let (mo, s) ← read2or1 1 12 1 s
  let s ← expectChar '-' s
  let (d, s) ← read2or1 1 31 1 s
  let s ← expectCharCI 'T' 't' s
  let (h, s) ← read2or1 0 23 0 s
  let s ← expectChar ':' s
  let (mi, s) ← read2or1 0 59 0 s
  let s ← expectChar ':' s
  let (sec, s) ← read2or1 0 61 0 s
  let s ← expectChar '.' s
  let (f, s) ← readFrac s
  let s ← expectCharCI 'Z' 'z' s
  if s.isEmpty then some (y, mo, d, h, mi, sec, f) else none

/-- The `datetime` constructor's field validation (year 1–9999, day
bounded by the month length, seconds at most 59 — the regex admits
leap-second values 60 and 61, which the constructor then rejects with
`ValueError`).  On success, the value as an epoch-microsecond instant. -/
def mkDatetimeUs (y mo d h mi s f : Nat) : Option Int :=
  if 1 ≤ y ∧ y ≤ 9999 ∧ 1 ≤ mo ∧ mo ≤ 12 ∧ 1 ≤ d ∧ d ≤ daysInMonth y mo
      ∧ h ≤ 23 ∧ mi ≤ 59 ∧ s ≤ 59 ∧ f ≤ 999999 then
    some (utcInstantUs y mo d h mi s f)
  else none

/-- `datetime.strptime(out, "%Y-%m-%dT%H:%M:%S.%fZ")` as `__getattr__`
calls it: a `ValueError` (pattern or field mismatch) and a `TypeError`
(non-string argument) are both caught and yield `none`. -/
def pyStrptimeIsoZ : JsonValue → Option Int
  | .str s =>
    match parseIsoZ s with
    | some (y, mo, d, h, mi, sec, f) => mkDatetimeUs y mo d h mi sec f
    | none => none
  | _ => none

/-- Round the nonnegative rational `a / b` to the nearest integer,
ties to even (IEEE 754 and Python `round` tie-breaking); `b > 0`. -/
def rndNE (a b : Nat) : Nat :=
  if 2 * (a % b) < b then a / b
  else if b < 2 * (a % b) then a / b + 1
  else if a / b % 2 = 0 then a / b else a / b + 1

/-- Floor of log2, with structural fuel so that kernel evaluation can
reduce it on literals (the fuel `n` always suffices). -/
def ilog2Aux : Nat → Nat → Nat
  | 0, _ => 0
  | fuel + 1, n => if n ≤ 1 then 0 else ilog2Aux fuel (n / 2) + 1

/-- `⌊log2 n⌋` (0 at 0). -/
def ilog2 (n : Nat) : Nat := ilog2Aux n n

/-- Floor of the base-2 logarithm of the positive rational `a / b`,
computed by scaling: `⌊a·2^64/b⌋` has the same log2 floor as
`(a/b)·2^64` (valid whenever `a·2^64 ≥ b`, amply true wherever this is
used). -/
def fl2 (a b : Nat) : Int := (ilog2 (a * 2 ^ 64 / b) : Int) - 64

/-- The IEEE binary64 (double) value nearest to the positive rational
`a / b` (round to nearest, ties to even), as a pair `(m, e)` denoting
`m · 2^e`: the 53-bit significand is the rounding of `(a/b) / 2^(fl2-52)`.
Zero, subnormals and overflow lie outside the range the program
reaches here and are not modelled. -/
def nearestDouble (a b : Nat) : Nat × Int :=
  if 52 - fl2 a b ≥ 0 then
    (rndNE (a * 2 ^ (52 - fl2 a b).toNat) b, fl2 a b - 52)
  else
    (rndNE a (b * 2 ^ (fl2 a b - 52).toNat), fl2 a b - 52)

/-- `datetime.fromtimestamp(int(out) / 1000)` as CPython computes it
for a nonnegative integer `n`: `int(out) / 1000` is IEEE-double true
division (one rounding); `fromtimestamp` then splits the double with
`modf` (exact: the fractional bits of a double are representable) and
computes the microsecond field as `round(frac * 1e6)` — a second
correctly-rounded double multiply, then Python `round`'s half-even
rounding to an integer — carrying into the seconds on overflow
(`Lib/datetime.py`, `_fromtimestamp`).  Result: the instant in
microseconds since the epoch.  Because of the double roundings this
can differ by one microsecond from `n` milliseconds exactly.
`fracUs` is the microsecond field `round(frac * 1e6)`: the exact
dyadic fraction `fnum/den`, times one million, rounded once as a
double multiplication and once to an integer (ties to even both
times). -/
def fracUs (fnum den : Nat) : Nat :=
  if (nearestDouble (fnum * 1000000) den).2 ≥ 0 then
    (nearestDouble (fnum * 1000000) den).1
      * 2 ^ (nearestDouble (fnum * 1000000) den).2.toNat
  else
    rndNE (nearestDouble (fnum * 1000000) den).1
      (2 ^ (-(nearestDouble (fnum * 1000000) den).2).toNat)

/-- Combine the integer seconds with the rounded microsecond field,
carrying a whole second when the fraction rounded up to `10^6`, as
`_fromtimestamp` does. -/
def fromtsCarry (i us : Nat) : Int :=
  if us < 1000000 then (i : Int) * 1000000 + (us : Int)
  else ((i : Int) + 1) * 1000000 + ((us : Int) - 1000000)

/-- `fromtimestamp` applied to the double `m · 2^ex`: `modf` splits it
exactly into integer seconds `m / 2^(-ex)` and fraction
`(m % 2^(-ex)) / 2^(-ex)`; a zero fraction gives microsecond 0, else
the fraction is scaled by `10^6` (`fracUs`) and combined. -/
def fromtsCore (m : Nat) (ex : Int) : Int :=
  if ex ≥ 0 then (m : Int) * 2 ^ ex.toNat * 1000000
  else if m % 2 ^ (-ex).toNat = 0 then ((m / 2 ^ (-ex).toNat : Nat) : Int) * 1000000
  else fromtsCarry (m / 2 ^ (-ex).toNat) (fracUs (m % 2 ^ (-ex).toNat) (2 ^ (-ex).toNat))

def pyFromtimestampUs (n : Nat) : Int :=
  if n = 0 then 0
  else fromtsCore (nearestDouble n 1000).1 (nearestDouble n 1000).2

/-- The value-coercion step of `_ForumObjectBase.__getattr__`
(src/PyBB.py lines 76–89): a value whose `str()` is thirteen decimal
digits becomes `datetime.fromtimestamp(int(out) / 1000)` — the
double-division-and-rounding pipeline `pyFromtimestampUs`, which is
the instant `int(out)` milliseconds after the epoch up to the
one-microsecond rounding of the two IEEE operations; otherwise a
string parsing as the `strptime` format above becomes that instant;
otherwise the value is returned unchanged. -/
def coerce (out : JsonValue) : JsonValue :=
  if pyIsDigit (pyStr out) && (pyStr out).length == 13 then
    .time (pyFromtimestampUs (digitsToInt (pyStr out)))
  else
    match pyStrptimeIsoZ out with
    | some us => .time us
    | none => out

/-- The error outcomes of the modelled fragment: `AttributeError`
raised at the end of `__getattr__` (its message names the class and the
key that failed), the `ValueError` raised in `Forum._setup` when the
`X-Powered-By` check fails, and the `KeyError` from
`self.config["siteTitle"]`. -/
inductive PyError where
  | attributeNotFound (cls : PyStr) (key : PyStr)
  | notANodeBBForum
  | keyError (key : PyStr)
  deriving DecidableEq

/-- The state of a `_ForumObjectBase` instance that `__getattr__`
reads: the class name (used in the error message), `self.data` and
`self.aliases`, both modelled as Python dicts (association lists with
unique keys, first-match lookup). -/
structure Entity where
  className : PyStr
  data : List (PyStr × JsonValue)
  aliases : List (PyStr × PyStr)

/-- Python dict lookup `d[k]` / `k in d` on an association list:
the first matching key. -/
def alookup {α : Type} : List (PyStr × α) → PyStr → Option α
  | [], _ => none
  | (k, v) :: rest, key => if k = key then some v else alookup rest key

/-- `_ForumObjectBase.__getattr__` (src/PyBB.py lines 71–96) with
explicit fuel: the source recursion `self.__getattr__(self.aliases[key])`
has no termination guard, so the model counts recursive calls; `none`
means the fuel ran out. -/
def resolveF (e : Entity) : Nat → PyStr → Option (Except PyError JsonValue)
  | 0, _ => none
  | n + 1, key =>
    match alookup e.data key with
    | some out => some (.ok (coerce out))
    | none =>
      match alookup e.aliases key with
      | some target => resolveF e n target
      | none => some (.error (.attributeNotFound e.className key))

/-- `resolve entity key`: `__getattr__` run with fuel
`aliases.length + 1`.  This fuel is saturating (`resolveF_saturates`
below): every terminating run of the source recursion needs at most one
alias step per distinct alias key, so `resolve` returns `some` exactly
when the source recursion terminates, and `none` exactly when it
recurses forever. -/
def resolve (e : Entity) (key : PyStr) : Option (Except PyError JsonValue) :=
  resolveF e (e.aliases.length + 1) key

/-- Insertion of one binding into a Python dict: an existing key keeps
its position and gets the new value, a new key is appended. -/
def upsert {α : Type} : List (PyStr × α) → PyStr → α → List (PyStr × α)
  | [], k, v => [(k, v)]
  | (k', v') :: rest, k, v =>
    if k' = k then (k', v) :: rest else (k', v') :: upsert rest k v

/-- `dict(pairs)`: build a Python dict from a pair list left to right;
a later pair with the same key overwrites the earlier value. -/
def pyDict {α : Type} (l : List (PyStr × α)) : List (PyStr × α) :=
  l.foldl (fun m kv => upsert m kv.1 kv.2) []

/-- Lookup of the last binding of a key in a pair list — the value a
Python dict built from the list holds. -/
def alookupLast {α : Type} (l : List (PyStr × α)) (k : PyStr) : Option α :=
  alookup l.reverse k

/-- The responses the external HTTP collaborator delivers during
`Forum._setup`: the `X-Powered-By` header of the `HEAD` response
(`none` when absent) and the decoded JSON documents of the two `GET`
responses (Python dicts). -/
structure HttpWorld where
  poweredBy : Option PyStr
  apiDoc : List (PyStr × JsonValue)
  configDoc : List (PyStr × JsonValue)

/-- One network request, for tracing which calls `Forum._setup`
issues. -/
inductive NetCall where
  | head (url : PyStr)
  | get (url : PyStr)
  deriving DecidableEq

/-- Modelled from the spec: URL joining (`urllib.parse.urljoin`) is
part of the external HTTP plumbing (spec §1); no verified claim
depends on URL syntax, so joining is modelled as concatenation. -/
def urljoin (base rel : PyStr) : PyStr := base ++ rel

/-- The constructed state of a `Forum`: its `_ForumObjectBase` part
plus the fields `_setup` assigns (`url`, `endpoint`, and `_name`, the
display name taken from the configuration's `siteTitle`). -/
structure Forum where
  entity : Entity
  url : PyStr
  endpoint : PyStr
  displayName : JsonValue

/-- `Forum._setup` (src/PyBB.py lines 106–129) as a pure function of
the collaborator's responses, paired with the trace of network calls
issued: the `HEAD` header check (`headers.get` yields `none` when the
header is absent, and `none ≠ "NodeBB"`), then `GET <url>api/` and
`GET <url>api/config`, then `_name = config["siteTitle"]` (a missing
key raises `KeyError`), the alias table `{"title": "siteTitle"}`, and
`data = dict(list(basedata.items()) + list(config.items()))`. -/
def forumSetup (url : PyStr) (w : HttpWorld) : Except PyError Forum × List NetCall :=
  if w.poweredBy ≠ some (pstr "NodeBB") then
    (.error .notANodeBBForum, [.head url])
  else
    let endpoint := urljoin url (pstr "api/")
    let basedata := w.apiDoc
    let cfurl := urljoin endpoint (pstr "config")
    let config := w.configDoc
    let calls := [NetCall.head url, .get endpoint, .get cfurl]
    match alookup config (pstr "siteTitle") with
    | none => (.error (.keyError (pstr "siteTitle")), calls)
    | some title =>
      (.ok { entity := { className := pstr "Forum",
                         data := pyDict (basedata ++ config),
                         aliases := [(pstr "title", pstr "siteTitle")] },
             url := url, endpoint := endpoint, displayName := title }, calls)

theorem digitChar_isDigit (n : Nat) : (digitChar n).isDigit = true := by
  have h : n % 10 < 10 := Nat.mod_lt _ (by norm_num)
  unfold digitChar
  set j := n % 10 with hj
  interval_cases j <;> decide

theorem digitVal_digitChar (n : Nat) : digitVal (digitChar n) = n % 10 := by
  have h : n % 10 < 10 := Nat.mod_lt _ (by norm_num)
  unfold digitChar digitVal
  set j := n % 10 with hj
  interval_cases j <;> decide

theorem pyIsDigit_eq_false_of_mem {s : PyStr} {c : Char} (hc : c ∈ s)
    (h : c.isDigit = false) : pyIsDigit s = false := by
  cases hall : s.all Char.isDigit with
  | false => simp [pyIsDigit, hall]
  | true => rw [List.all_eq_true] at hall; rw [hall c hc] at h; cases h

theorem pyIsDigit_dateTimeChars (y : Int) (m d sec f : Nat) :
    pyIsDigit (dateTimeChars y m d sec f) = false := by
  refine pyIsDigit_eq_false_of_mem (c := '-') ?_ (by decide)
  unfold dateTimeChars
  simp

theorem pyIsDigit_timeStr (us : Int) : pyIsDigit (timeStr us) = false :=
  pyIsDigit_dateTimeChars _ _ _ _ _

theorem coerce_time (us : Int) : coerce (.time us) = .time us := by
  have h : pyStr (.time us) = timeStr us := rfl
  simp [coerce, h, pyIsDigit_timeStr, pyStrptimeIsoZ]

theorem coerce_cases (v : JsonValue) : (∃ us, coerce v = .time us) ∨ coerce v = v := by
  unfold coerce
  split
  · exact .inl ⟨_, rfl⟩
  · split
    · exact .inl ⟨_, rfl⟩
    · exact .inr rfl

theorem coerce_idem (v : JsonValue) : coerce (coerce v) = coerce v := by
  rcases coerce_cases v with ⟨us, h⟩ | h
  · rw [h, coerce_time]
  · rw [h]; exact h

theorem alookup_mem_keys {α : Type} :
    ∀ {l : List (PyStr × α)} {k : PyStr} {t : α},
      alookup l k = some t → k ∈ l.map Prod.fst := by
  intro l
  induction l with
  | nil => intro k t h; simp [alookup] at h
  | cons kv rest ih =>
    obtain ⟨k1, v1⟩ := kv
    intro k t h
    rw [alookup] at h
    by_cases hk : k1 = k
    · subst hk
      simp only [List.map_cons]
      exact List.mem_cons_self _ _
    · rw [if_neg hk] at h
      simp only [List.map_cons, List.mem_cons]
      exact Or.inr (ih h)

theorem alookup_eq_none_of_not_mem {α : Type} {l : List (PyStr × α)} {k : PyStr}
    (h : k ∉ l.map Prod.fst) : alookup l k = none := by
  cases hl : alookup l k with
  | none => rfl
  | some t => exact absurd (alookup_mem_keys hl) h

theorem alookup_append {α : Type} :
    ∀ (a b : List (PyStr × α)) (k : PyStr),
      alookup (a ++ b) k =
        match alookup a k with
        | some v => some v
        | none => alookup b k := by
  intro a
  induction a with
  | nil => intro b k; rfl
  | cons kv rest ih =>
    obtain ⟨k1, v1⟩ := kv
    intro b k
    rw [List.cons_append]
    by_cases h : k1 = k
    · simp [alookup, h]
    · rw [alookup, if_neg h, alookup, if_neg h, ih]

theorem alookup_upsert {α : Type} :
    ∀ (m : List (PyStr × α)) (k : PyStr) (v : α) (key : PyStr),
      alookup (upsert m k v) key = if key = k then some v else alookup m key := by
  intro m
  induction m with
  | nil =>
    intro k v key
    by_cases h : key = k
    · subst h; simp [upsert, alookup]
    · have h2 : ¬ k = key := fun hh => h hh.symm
      simp [upsert, alookup, h, h2]
  | cons kv rest ih =>
    obtain ⟨k1, v1⟩ := kv
    intro k v key
    rw [upsert]
    by_cases h1 : k1 = k
    · subst h1
      rw [if_pos rfl]
      by_cases h2 : key = k1
      · subst h2; simp [alookup]
      · have h3 : ¬ k1 = key := fun hh => h2 hh.symm
        simp [alookup, h2, h3]
    · rw [if_neg h1]
      by_cases h2 : k1 = key
      · subst h2
        simp [alookup, h1]
      · simp only [alookup, if_neg h2]
        exact ih k v key

theorem alookup_foldl_upsert {α : Type} :
    ∀ (l m : List (PyStr × α)) (key : PyStr),
      alookup (l.foldl (fun m kv => upsert m kv.1 kv.2) m) key =
        match alookupLast l key with
        | some v => some v
        | none => alookup m key := by
  intro l
  induction l with
  | nil => intro m key; rfl
  | cons kv rest ih =>
    obtain ⟨k1, v1⟩ := kv
    intro m key
    rw [List.foldl_cons, ih]
    have hR : alookupLast ((k1, v1) :: rest) key =
        match alookupLast rest key with
        | some v => some v
        | none => if key = k1 then some v1 else none := by
      unfold alookupLast
      rw [List.reverse_cons, alookup_append]
      cases h : alookup rest.reverse key with
      | some v => rfl
      | none =>
        by_cases h2 : k1 = key
        · subst h2; simp [alookup]
        · have h3 : ¬ key = k1 := fun hh => h2 hh.symm
          simp [alookup, h2, h3]
    rw [hR]
    cases halo : alookupLast rest key with
    | some v => rfl
    | none =>
      rw [alookup_upsert]
      by_cases h : key = k1 <;> simp [h]

theorem alookup_pyDict {α : Type} (l : List (PyStr × α)) (key : PyStr) :
    alookup (pyDict l) key = alookupLast l key := by
  unfold pyDict
  rw [alookup_foldl_upsert]
  cases alookupLast l key <;> rfl

theorem alookupLast_append_right {α : Type} {b : List (PyStr × α)} {k : PyStr} {v : α}
    (a : List (PyStr × α)) (h : alookupLast b k = some v) :
    alookupLast (a ++ b) k = some v := by
  unfold alookupLast at h ⊢
  rw [List.reverse_append, alookup_append, h]

theorem alookup_eq_alookupLast_of_nodup {α : Type} :
    ∀ {l : List (PyStr × α)}, (l.map Prod.fst).Nodup →
      ∀ k, alookup l k = alookupLast l k := by
  intro l
  induction l with
  | nil => intro _ k; rfl
  | cons kv rest ih =>
    obtain ⟨k1, v1⟩ := kv
    intro hnd k
    rw [List.map_cons, List.nodup_cons] at hnd
    obtain ⟨hk1, hrest⟩ := hnd
    have hR : alookupLast ((k1, v1) :: rest) k =
        match alookupLast rest k with
        | some v => some v
        | none => if k1 = k then some v1 else none := by
      unfold alookupLast
      rw [List.reverse_cons, alookup_append]
      cases h : alookup rest.reverse k with
      | some v => rfl
      | none => simp [alookup]
    rw [hR]
    by_cases h : k1 = k
    · subst h
      have hnone : alookupLast rest k1 = none := by
        unfold alookupLast
        refine alookup_eq_none_of_not_mem ?_
        rw [List.map_reverse, List.mem_reverse]
        exact hk1
      rw [hnone]
      simp [alookup]
    · rw [alookup, if_neg h, ih hrest k]
      cases h2 : alookupLast rest k with
      | some v => rfl
      | none => simp [h]

theorem resolveF_mono (e : Entity) :
    ∀ {n m : Nat} {k : PyStr} {r : Except PyError JsonValue},
      n ≤ m → resolveF e n k = some r → resolveF e m k = some r := by
  intro n
  induction n with
  | zero => intro m k r _ h; simp [resolveF] at h
  | succ n ih =>
    intro m k r hnm h
    obtain ⟨m', rfl⟩ : ∃ m', m = m' + 1 := ⟨m - 1, by omega⟩
    rw [resolveF] at h ⊢
    cases hd : alookup e.data k with
    | some v => rw [hd] at h; exact h
    | none =>
      rw [hd] at h
      cases ha : alookup e.aliases k with
      | some t => rw [ha] at h; exact ih (show n ≤ m' by omega) h
      | none => rw [ha] at h; exact h

/-- Every terminating run of the `__getattr__` recursion that still
needed its last unit of fuel after `n` alias steps visited `n` distinct
alias keys: the fuel threshold of a key determines it uniquely, and
each step decreases the threshold by one. -/
theorem resolveF_chain (e : Entity) :
    ∀ n k, resolveF e n k = none → resolveF e (n + 1) k ≠ none →
      ∃ ks : List PyStr, ks.length = n ∧ ks.Nodup ∧
        ∀ x ∈ ks, x ∈ e.aliases.map Prod.fst ∧
          ∃ m, m ≤ n ∧ resolveF e m x = none ∧ resolveF e (m + 1) x ≠ none := by
  intro n
  induction n with
  | zero =>
    intro k _ _
    exact ⟨[], rfl, List.nodup_nil, by intro x hx; cases hx⟩
  | succ n ih =>
    intro k h1 h2
    have h1u := h1
    rw [resolveF] at h1u
    cases hd : alookup e.data k with
    | some v => rw [hd] at h1u; exact Option.noConfusion h1u
    | none =>
      rw [hd] at h1u
      cases ha : alookup e.aliases k with
      | none => rw [ha] at h1u; exact Option.noConfusion h1u
      | some t =>
        rw [ha] at h1u
        have h1t : resolveF e n t = none := h1u
        have h2u : resolveF e (n + 1) t ≠ none := by
          rw [resolveF, hd, ha] at h2
          exact h2
        obtain ⟨ks, hlen, hnd, hmem⟩ := ih t h1t h2u
        refine ⟨k :: ks, by simp [hlen], ?_, ?_⟩
        · refine List.nodup_cons.mpr ⟨?_, hnd⟩
          intro hkks
          obtain ⟨_, m, hm, _, hsome⟩ := hmem k hkks
          obtain ⟨r, hr⟩ := Option.ne_none_iff_exists'.mp hsome
          have := resolveF_mono e (show m + 1 ≤ n + 1 by omega) hr
          rw [h1] at this
          cases this
        · intro x hx
          rcases List.mem_cons.mp hx with rfl | hx'
          · exact ⟨alookup_mem_keys ha, n + 1, le_refl _, h1, h2⟩
          · obtain ⟨hmem', m, hm, hnone, hsome⟩ := hmem x hx'
            exact ⟨hmem', m, by omega, hnone, hsome⟩

/-- Fuel `aliases.length + 1` is saturating: if the source recursion
terminates with answer `r` at any fuel, `resolve` returns `some r`. -/
theorem resolveF_saturates (e : Entity) {n : Nat} {k : PyStr}
    {r : Except PyError JsonValue} (h : resolveF e n k = some r) :
    resolve e k = some r := by
  unfold resolve
  by_cases hL : resolveF e (e.aliases.length + 1) k = none
  · exfalso
    have hex : ∃ m, (resolveF e m k).isSome := ⟨n, by simp [h]⟩
    have hspec : (resolveF e (Nat.find hex) k).isSome := Nat.find_spec hex
    have hmin : ∀ m, m < Nat.find hex → resolveF e m k = none := by
      intro m hm
      have hnot := Nat.find_min hex hm
      cases hr2 : resolveF e m k with
      | none => rfl
      | some r2 => rw [hr2] at hnot; cases hnot rfl
    have hpos : Nat.find hex ≠ 0 := by
      intro h0
      rw [h0] at hspec
      simp [resolveF] at hspec
    have hgt : e.aliases.length + 1 < Nat.find hex := by
      by_contra hle
      push_neg at hle
      obtain ⟨r2, hr2⟩ := Option.isSome_iff_exists.mp hspec
      have := resolveF_mono e hle hr2
      rw [hL] at this
      cases this
    obtain ⟨ks, hlen, hnd, hmem⟩ :=
      resolveF_chain e (Nat.find hex - 1) k (hmin _ (by omega))
        (by
          rw [show Nat.find hex - 1 + 1 = Nat.find hex by omega]
          intro hc
          rw [hc] at hspec
          cases hspec)
    have hsub : ks ⊆ e.aliases.map Prod.fst := fun x hx => (hmem x hx).1
    have hlep := (List.subperm_of_subset hnd hsub).length_le
    rw [hlen, List.length_map] at hlep
    omega
  · obtain ⟨r2, hr2⟩ := Option.ne_none_iff_exists'.mp hL
    have hup1 := resolveF_mono e (Nat.le_max_left n (e.aliases.length + 1)) h
    have hup2 := resolveF_mono e (Nat.le_max_right n (e.aliases.length + 1)) hr2
    rw [hup1] at hup2
    rw [hr2]
    exact hup2.symm

/-- Step 1 of the `__getattr__` precedence: a key present in `data`
resolves to the coerced raw value. -/
theorem resolve_data_hit (e : Entity) {k : PyStr} {v : JsonValue}
    (h : alookup e.data k = some v) :
    resolve e k = some (.ok (coerce v)) := by
  unfold resolve
  rw [resolveF, h]

/-- Step 3 of the `__getattr__` precedence: a key in neither `data` nor
`aliases` raises `AttributeError` naming that key. -/
theorem resolve_miss (e : Entity) {k : PyStr}
    (hd : alookup e.data k = none) (ha : alookup e.aliases k = none) :
    resolve e k = some (.error (.attributeNotFound e.className k)) := by
  unfold resolve
  rw [resolveF, hd, ha]

/-- Step 2 of the `__getattr__` precedence: an alias defers to its
target, with the same final outcome (including divergence). -/
theorem resolve_alias (e : Entity) {k t : PyStr}
    (hd : alookup e.data k = none) (ha : alookup e.aliases k = some t) :
    resolve e k = resolve e t := by
  have hstep : resolve e k = resolveF e e.aliases.length t := by
    unfold resolve
    rw [resolveF, hd, ha]
  cases hLt : resolveF e e.aliases.length t with
  | some r =>
    rw [hstep, hLt, resolveF_saturates e hLt]
  | none =>
    rw [hstep, hLt]
    cases hfull : resolve e t with
    | none => rfl
    | some r =>
      exfalso
      have hk1 : resolveF e (e.aliases.length + 1) k = none := by
        rw [show resolveF e (e.aliases.length + 1) k = resolveF e e.aliases.length t
          from by rw [resolveF, hd, ha]]
        exact hLt
      have hk2 : resolveF e (e.aliases.length + 1 + 1) k ≠ none := by
        rw [show resolveF e (e.aliases.length + 1 + 1) k
            = resolveF e (e.aliases.length + 1) t from by rw [resolveF, hd, ha]]
        unfold resolve at hfull
        rw [hfull]
        intro hc
        cases hc
      obtain ⟨ks, hlen, hnd, hmem⟩ := resolveF_chain e (e.aliases.length + 1) k hk1 hk2
      have hsub : ks ⊆ e.aliases.map Prod.fst := fun x hx => (hmem x hx).1
      have hlep := (List.subperm_of_subset hnd hsub).length_le
      rw [hlen, List.length_map] at hlep
      omega

theorem readNDigits4_pad4 (y : Nat) (hy : y ≤ 9999) (rest : PyStr) :
    readNDigits 4 0 (pad4 y ++ rest) = some (y, rest) := by
  simp [pad4, readNDigits, digitChar_isDigit, digitVal_digitChar]
  omega

theorem read2or1_pad2 (lo2 hi2 lo1 m : Nat) (hm : m ≤ 99) (hlo : lo2 ≤ m)
    (hhi : m ≤ hi2) (rest : PyStr) :
    read2or1 lo2 hi2 lo1 (pad2 m ++ rest) = some (m, rest) := by
  have h1 : 10 * digitVal (digitChar (m / 10)) + digitVal (digitChar m) = m := by
    rw [digitVal_digitChar, digitVal_digitChar]; omega
  simp [pad2, read2or1, digitChar_isDigit, h1, hlo, hhi]

theorem readFrac_pad6 (f : Nat) (hf : f ≤ 999999) (rest : PyStr) :
    readFrac (pad6 f ++ rest) = some (f, rest) := by
  simp [pad6, readFrac, grabFrac, digitChar_isDigit, digitVal_digitChar]
  omega

theorem daysInMonth_le_31 (y mo : Nat) : daysInMonth y mo ≤ 31 := by
  unfold daysInMonth
  split
  · split <;> omega
  · split <;> omega

/-- A string of exactly the shape `YYYY-MM-DDTHH:MM:SS.ffffffZ` (the
spec's pattern, §4.1 step 2), built from its numeric fields: four year
digits, zero-padded two-digit date and time fields, six fraction
digits, and the literal separators. -/
def isoRender (y mo d h mi s f : Nat) : PyStr :=
  pad4 y ++ '-' :: (pad2 mo ++ '-' :: (pad2 d ++ 'T' :: (pad2 h ++ ':' ::
    (pad2 mi ++ ':' :: (pad2 s ++ '.' :: (pad6 f ++ ['Z']))))))

/-- The same shape with the fractional-seconds component omitted:
`YYYY-MM-DDTHH:MM:SSZ`. -/
def isoRenderNoFrac (y mo d h mi s : Nat) : PyStr :=
  pad4 y ++ '-' :: (pad2 mo ++ '-' :: (pad2 d ++ 'T' :: (pad2 h ++ ':' ::
    (pad2 mi ++ ':' :: (pad2 s ++ ['Z'])))))

theorem expectChar_cons_self (c : Char) (s : PyStr) : expectChar c (c :: s) = some s := by
  rw [expectChar, if_pos rfl]

theorem expectChar_cons_ne {x c : Char} (h : ¬ x = c) (s : PyStr) :
    expectChar c (x :: s) = none := by
  rw [expectChar, if_neg h]

theorem expectCharCI_cons_self (c c' : Char) (s : PyStr) : expectCharCI c c' (c :: s) = some s := by
  rw [expectCharCI, if_pos (Or.inl rfl)]

theorem bindOption_some {α β : Type} (a : α) (f : α → Option β) :
    Bind.bind (some a) f = f a := rfl

theorem bindOption_none {α β : Type} (f : α → Option β) :
    Bind.bind (none : Option α) f = none := rfl

theorem parseIsoZ_isoRender (y mo d h mi s f : Nat)
    (hy : y ≤ 9999) (hmo1 : 1 ≤ mo) (hmo2 : mo ≤ 12) (hd1 : 1 ≤ d) (hd2 : d ≤ 31)
    (hh : h ≤ 23) (hmi : mi ≤ 59) (hs : s ≤ 59) (hf : f ≤ 999999) :
    parseIsoZ (isoRender y mo d h mi s f) = some (y, mo, d, h, mi, s, f) := by
  have e1 := readNDigits4_pad4 y hy
  have e2 := read2or1_pad2 1 12 1 mo (by omega) hmo1 hmo2
  have e3 := read2or1_pad2 1 31 1 d (by omega) hd1 hd2
  have e4 := read2or1_pad2 0 23 0 h (by omega) (by omega) hh
  have e5 := read2or1_pad2 0 59 0 mi (by omega) (by omega) hmi
  have e6 := read2or1_pad2 0 61 0 s (by omega) (by omega) (by omega)
  have e7 := readFrac_pad6 f hf
  unfold parseIsoZ isoRender
  simp only [e1, e2, e3, e4, e5, e6, e7, bindOption_some,
    expectChar_cons_self, expectCharCI_cons_self, List.isEmpty_nil, reduceIte]

theorem parseIsoZ_isoRenderNoFrac (y mo d h mi s : Nat)
    (hy : y ≤ 9999) (hmo1 : 1 ≤ mo) (hmo2 : mo ≤ 12) (hd1 : 1 ≤ d) (hd2 : d ≤ 31)
    (hh : h ≤ 23) (hmi : mi ≤ 59) (hs : s ≤ 59) :
    parseIsoZ (isoRenderNoFrac y mo d h mi s) = none := by
  have e1 := readNDigits4_pad4 y hy
  have e2 := read2or1_pad2 1 12 1 mo (by omega) hmo1 hmo2
  have e3 := read2or1_pad2 1 31 1 d (by omega) hd1 hd2
  have e4 := read2or1_pad2 0 23 0 h (by omega) (by omega) hh
  have e5 := read2or1_pad2 0 59 0 mi (by omega) (by omega) hmi
  have e6 := read2or1_pad2 0 61 0 s (by omega) (by omega) (by omega)
  have eZ : expectChar '.' ('Z' :: ([] : PyStr)) = none :=
    expectChar_cons_ne (by decide) []
  unfold parseIsoZ isoRenderNoFrac
  simp only [e1, e2, e3, e4, e5, e6, eZ, bindOption_some, bindOption_none,
    expectChar_cons_self, expectCharCI_cons_self]

theorem pyIsDigit_isoRender (y mo d h mi s f : Nat) :
    pyIsDigit (isoRender y mo d h mi s f) = false := by
  refine pyIsDigit_eq_false_of_mem (c := '-') ?_ (by decide)
  unfold isoRender
  simp

theorem pyIsDigit_isoRenderNoFrac (y mo d h mi s : Nat) :
    pyIsDigit (isoRenderNoFrac y mo d h mi s) = false := by
  refine pyIsDigit_eq_false_of_mem (c := '-') ?_ (by decide)
  unfold isoRenderNoFrac
  simp

theorem coerce_isoRender (y mo d h mi s f : Nat)
    (hy1 : 1 ≤ y) (hy : y ≤ 9999) (hmo1 : 1 ≤ mo) (hmo2 : mo ≤ 12)
    (hd1 : 1 ≤ d) (hd2 : d ≤ daysInMonth y mo)
    (hh : h ≤ 23) (hmi : mi ≤ 59) (hs : s ≤ 59) (hf : f ≤ 999999) :
    coerce (.str (isoRender y mo d h mi s f)) = .time (utcInstantUs y mo d h mi s f) := by
  have hd31 : d ≤ 31 := le_trans hd2 (daysInMonth_le_31 y mo)
  have hparse := parseIsoZ_isoRender y mo d h mi s f hy hmo1 hmo2 hd1 hd31 hh hmi hs hf
  have hguard : pyIsDigit (pyStr (.str (isoRender y mo d h mi s f))) = false :=
    pyIsDigit_isoRender y mo d h mi s f
  rw [coerce, hguard]
  simp only [Bool.false_and, Bool.false_eq_true, if_false]
  rw [show pyStrptimeIsoZ (.str (isoRender y mo d h mi s f))
      = mkDatetimeUs y mo d h mi s f from by rw [pyStrptimeIsoZ, hparse]]
  rw [mkDatetimeUs, if_pos ⟨hy1, hy, hmo1, hmo2, hd1, hd2, hh, hmi, hs, hf⟩]

theorem coerce_isoRenderNoFrac (y mo d h mi s : Nat)
    (hy : y ≤ 9999) (hmo1 : 1 ≤ mo) (hmo2 : mo ≤ 12) (hd1 : 1 ≤ d) (hd2 : d ≤ 31)
    (hh : h ≤ 23) (hmi : mi ≤ 59) (hs : s ≤ 59) :
    coerce (.str (isoRenderNoFrac y mo d h mi s)) = .str (isoRenderNoFrac y mo d h mi s) := by
  have hparse := parseIsoZ_isoRenderNoFrac y mo d h mi s hy hmo1 hmo2 hd1 hd2 hh hmi hs
  have hguard : pyIsDigit (pyStr (.str (isoRenderNoFrac y mo d h mi s))) = false :=
    pyIsDigit_isoRenderNoFrac y mo d h mi s
  rw [coerce, hguard]
  simp only [Bool.false_and, Bool.false_eq_true, if_false]
  rw [show pyStrptimeIsoZ (.str (isoRenderNoFrac y mo d h mi s)) = none
      from by rw [pyStrptimeIsoZ, hparse]]

theorem rndNE_of_dvd {a b : Nat} (hb : 0 < b) (h : b ∣ a) : rndNE a b = a / b := by
  obtain ⟨c, rfl⟩ := h
  have hr : b * c % b = 0 := by simp
  simp [rndNE, hr, hb]

theorem ilog2Aux_spec :
    ∀ (fuel n : Nat), n ≤ fuel → 1 ≤ n →
      2 ^ ilog2Aux fuel n ≤ n ∧ n < 2 ^ (ilog2Aux fuel n + 1) := by
  intro fuel
  induction fuel with
  | zero => intro n h1 h2; omega
  | succ fuel ih =>
    intro n h1 h2
    rw [ilog2Aux]
    by_cases hn : n ≤ 1
    · rw [if_pos hn]
      refine ⟨by simpa using h2, ?_⟩
      have h3 : n = 1 := by omega
      rw [h3]
      norm_num
    · rw [if_neg hn]
      obtain ⟨ha, hb⟩ := ih (n / 2) (by omega) (by omega)
      constructor
      · rw [pow_succ]
        omega
      · rw [pow_succ]
        omega

theorem ilog2_spec {n : Nat} (h : 1 ≤ n) :
    2 ^ ilog2 n ≤ n ∧ n < 2 ^ (ilog2 n + 1) :=
  ilog2Aux_spec n n (le_refl n) h

theorem ilog2_eq_of {n k : Nat} (h1 : 2 ^ k ≤ n) (h2 : n < 2 ^ (k + 1)) :
    ilog2 n = k := by
  have hn : 1 ≤ n := le_trans (Nat.two_pow_pos k) h1
  obtain ⟨hl, hu⟩ := ilog2_spec hn
  have a1 : ilog2 n < k + 1 :=
    (Nat.pow_lt_pow_iff_right (by omega)).mp (lt_of_le_of_lt hl h2)
  have a2 : k < ilog2 n + 1 :=
    (Nat.pow_lt_pow_iff_right (by omega)).mp (lt_of_le_of_lt h1 hu)
  omega

theorem ilog2_le_of_lt {n c : Nat} (h2 : n < 2 ^ (c + 1)) : ilog2 n ≤ c := by
  by_cases hn : 1 ≤ n
  · obtain ⟨hl, _⟩ := ilog2_spec hn
    have hx := (Nat.pow_lt_pow_iff_right (by omega)).mp (lt_of_le_of_lt hl h2)
    omega
  · have h0 : n = 0 := by omega
    subst h0
    have h3 : ilog2 0 = 0 := rfl
    omega

theorem ilog2_mul_two_pow {R : Nat} (hR : 1 ≤ R) (c : Nat) :
    ilog2 (R * 2 ^ c) = ilog2 R + c := by
  obtain ⟨h1, h2⟩ := ilog2_spec hR
  apply ilog2_eq_of
  · rw [pow_add]
    exact Nat.mul_le_mul_right _ h1
  · rw [show ilog2 R + c + 1 = ilog2 R + 1 + c by omega, pow_add]
    exact mul_lt_mul_of_pos_right h2 (Nat.two_pow_pos c)

/-- A positive rational `(b·R)/b` that is exactly an integer of at
most 52 bits is represented exactly by `nearestDouble`. -/
theorem nearestDouble_int {R b : Nat} (hb : 0 < b) (hR1 : 1 ≤ R) (hR2 : R < 2 ^ 52) :
    ∃ s2 : Nat, 1 ≤ s2 ∧ nearestDouble (b * R) b = (R * 2 ^ s2, -(s2 : Int)) := by
  have harg : b * R * 2 ^ 64 / b = R * 2 ^ 64 := by
    rw [Nat.mul_assoc, Nat.mul_div_cancel_left _ hb]
  have hfl : fl2 (b * R) b = (ilog2 R : Int) := by
    unfold fl2
    rw [harg, ilog2_mul_two_pow hR1]
    push_cast
    omega
  have hle : ilog2 R ≤ 51 := ilog2_le_of_lt (show R < 2 ^ (51 + 1) from hR2)
  refine ⟨52 - ilog2 R, by omega, ?_⟩
  unfold nearestDouble
  rw [hfl]
  rw [if_pos (by omega : (52 : Int) - (ilog2 R : Int) ≥ 0)]
  have htn : ((52 : Int) - (ilog2 R : Int)).toNat = 52 - ilog2 R := by omega
  rw [htn]
  have h1 : rndNE (b * R * 2 ^ (52 - ilog2 R)) b = R * 2 ^ (52 - ilog2 R) := by
    rw [rndNE_of_dvd hb ⟨R * 2 ^ (52 - ilog2 R), by ring⟩]
    rw [Nat.mul_assoc, Nat.mul_div_cancel_left _ hb]
  rw [h1]
  simp only [Prod.mk.injEq]
  exact ⟨trivial, by omega⟩

/-- `fromtimestamp` applied to the exactly-represented dyadic
`(k/8)` seconds (significand `k·2^(S-3)`, exponent `-S`): both the
fraction split and the microsecond rounding are exact, giving
`k · 125000` microseconds. -/
theorem fromtsCore_div8 (k S : Nat) (hS3 : 3 ≤ S) :
    fromtsCore (k * 2 ^ (S - 3)) (-(S : Int)) = (k : Int) * 125000 := by
  have h8 : (2 : Nat) ^ S = 2 ^ (S - 3) * 8 := by
    rw [show (8 : Nat) = 2 ^ 3 from rfl, ← pow_add]
    congr 1
    omega
  have hpow3 : 0 < (2 : Nat) ^ (S - 3) := Nat.two_pow_pos _
  unfold fromtsCore
  rw [if_neg (by omega : ¬ (-(S : Int) ≥ 0))]
  rw [show (-(-(S : Int))).toNat = S by omega]
  have hmod : k * 2 ^ (S - 3) % 2 ^ S = 2 ^ (S - 3) * (k % 8) := by
    rw [h8, Nat.mul_comm k _, Nat.mul_mod_mul_left]
  have hdiv : k * 2 ^ (S - 3) / 2 ^ S = k / 8 := by
    rw [h8, Nat.mul_comm k _, Nat.mul_div_mul_left _ _ hpow3]
  rw [hmod, hdiv]
  by_cases hk8 : k % 8 = 0
  · rw [hk8, Nat.mul_zero, if_pos rfl]
    push_cast
    omega
  · rw [if_neg (fun hc => by
      rcases Nat.mul_eq_zero.mp hc with h | h
      · omega
      · exact hk8 h)]
    unfold fracUs
    have hab : 2 ^ (S - 3) * (k % 8) * 1000000 = 2 ^ S * (125000 * (k % 8)) := by
      rw [h8]
      ring
    have hk8lt : k % 8 < 8 := Nat.mod_lt _ (by omega)
    have hR1 : 1 ≤ 125000 * (k % 8) := by omega
    have hR2 : 125000 * (k % 8) < 2 ^ 52 := by
      have hc : (2 : Nat) ^ 52 = 4503599627370496 := by norm_num
      omega
    obtain ⟨s2, hs21, hnd2⟩ := nearestDouble_int (Nat.two_pow_pos S) hR1 hR2
    rw [hab, hnd2]
    rw [if_neg (by omega : ¬ (-(s2 : Int) ≥ 0))]
    rw [show (-(-(s2 : Int))).toNat = s2 by omega]
    rw [rndNE_of_dvd (Nat.two_pow_pos s2) ⟨125000 * (k % 8), by ring⟩]
    rw [show 125000 * (k % 8) * 2 ^ s2 / 2 ^ s2 = 125000 * (k % 8) from
      Nat.mul_div_cancel _ (Nat.two_pow_pos s2)]
    unfold fromtsCarry
    rw [if_pos (by omega : 125000 * (k % 8) < 1000000)]
    push_cast
    omega

/-- Millisecond values divisible by 125 (so that `n/1000` is a short
dyadic) survive `int(n)/1000` and `fromtimestamp` exactly. -/
theorem pyFromtimestampUs_exact_of_div125 {n : Nat} (hn : n ≤ 9999999999999)
    (hd : n % 125 = 0) : pyFromtimestampUs n = (n : Int) * 1000 := by
  by_cases h0 : n = 0
  · subst h0
    rfl
  obtain ⟨k, rfl⟩ : ∃ k, n = 125 * k := ⟨n / 125, by omega⟩
  have hk1 : 1 ≤ k := by omega
  have heB : fl2 (125 * k) 1000 ≤ 33 := by
    unfold fl2
    have h1 : 125 * k * 2 ^ 64 ≤ 9999999999875 * 2 ^ 64 :=
      Nat.mul_le_mul_right _ (by omega)
    have h2 : 125 * k * 2 ^ 64 / 1000 ≤ 9999999999875 * 2 ^ 64 / 1000 :=
      Nat.div_le_div_right h1
    have h3 : 9999999999875 * 2 ^ 64 / 1000 < 2 ^ 98 := by decide
    have h4 := ilog2_le_of_lt (show 125 * k * 2 ^ 64 / 1000 < 2 ^ (97 + 1) by omega)
    omega
  set e := fl2 (125 * k) 1000 with he
  set S := ((52 : Int) - e).toNat with hS
  have hSe : (S : Int) = 52 - e := by omega
  have hS3 : 3 ≤ S := by omega
  have hnd1 : nearestDouble (125 * k) 1000 = (k * 2 ^ (S - 3), e - 52) := by
    unfold nearestDouble
    rw [← he, ← hS]
    rw [if_pos (by omega : (52 : Int) - e ≥ 0)]
    have h8 : (2 : Nat) ^ S = 2 ^ (S - 3) * 8 := by
      rw [show (8 : Nat) = 2 ^ 3 from rfl, ← pow_add]
      congr 1
      omega
    have heq : 125 * k * 2 ^ S = k * 2 ^ (S - 3) * 1000 := by
      rw [h8]
      ring
    rw [rndNE_of_dvd (by omega) ⟨k * 2 ^ (S - 3), by rw [heq]; ring⟩]
    rw [heq, Nat.mul_div_cancel _ (by omega : 0 < 1000)]
  have h0' : 125 * k ≠ 0 := by omega
  have hstep : pyFromtimestampUs (125 * k) = fromtsCore (k * 2 ^ (S - 3)) (e - 52) := by
    unfold pyFromtimestampUs
    rw [if_neg h0', hnd1]
  rw [hstep, show e - 52 = -(S : Int) by omega, fromtsCore_div8 k S hS3]
  push_cast
  ring

/-- An entity whose alias table maps a key to itself, with no data:
the source recursion `__getattr__("a")` never terminates on it. -/
def cyclicEntity : Entity :=
  { className := pstr "Cyc", data := [], aliases := [(pstr "a", pstr "a")] }

/-- Claim C1: for every entity and every key, `resolve(entity, key)`
follows this precedence, each step attempted only if the previous
missed: a key present in `data` yields the coerced stored value
(`coerce(entity.attributes[key])`); otherwise a key present in
`aliases` behaves exactly as resolving the alias target; otherwise
resolution fails with `AttributeNotFound`. -/
theorem C1_resolve_precedence (e : Entity) (k : PyStr) :
    (∀ v, alookup e.data k = some v → resolve e k = some (.ok (coerce v))) ∧
    (alookup e.data k = none →
      ∀ t, alookup e.aliases k = some t → resolve e k = resolve e t) ∧
    (alookup e.data k = none → alookup e.aliases k = none →
      resolve e k = some (.error (.attributeNotFound e.className k))) :=
  ⟨fun _ hv => resolve_data_hit e hv,
   fun hd _ ht => resolve_alias e hd ht,
   fun hd ha => resolve_miss e hd ha⟩

/-- Witness for C1: the three precedence branches evaluated on
concrete entities. -/
theorem C1_resolve_precedence_witness :
    resolve { className := pstr "A", data := [(pstr "k", .str (pstr "v"))],
              aliases := [] } (pstr "k") = some (.ok (.str (pstr "v"))) ∧
    resolve { className := pstr "B", data := [],
              aliases := [(pstr "k", pstr "m")] } (pstr "k")
      = resolve { className := pstr "B", data := [],
                  aliases := [(pstr "k", pstr "m")] } (pstr "m") ∧
    resolve { className := pstr "C", data := [], aliases := [] } (pstr "x")
      = some (.error (.attributeNotFound (pstr "C") (pstr "x"))) :=
  by
  refine ⟨(C1_resolve_precedence _ _).1 (.str (pstr "v")) ?_,
    (C1_resolve_precedence _ _).2.1 ?_ (pstr "m") ?_,
    (C1_resolve_precedence _ _).2.2 ?_ ?_⟩ <;> rfl

/-- Claim C2: `coerce` is idempotent, and the resolved value of a
direct attribute hit depends only on the stored raw value — never on
the key name, the entity's class, or anything else in the entity. -/
theorem C2_coerce_idempotent_pure :
    (∀ v : JsonValue, coerce (coerce v) = coerce v) ∧
    (∀ (e1 e2 : Entity) (k1 k2 : PyStr) (v : JsonValue),
      alookup e1.data k1 = some v → alookup e2.data k2 = some v →
      resolve e1 k1 = resolve e2 k2) :=
  ⟨coerce_idem, fun e1 e2 _ _ _ h1 h2 => by
    rw [resolve_data_hit e1 h1, resolve_data_hit e2 h2]⟩

/-- Witness for C2: two entities of different class storing the same
raw value under different keys resolve identically. -/
theorem C2_coerce_idempotent_pure_witness :
    resolve { className := pstr "User", data := [(pstr "joindate", .num 1609459200000)],
              aliases := [] } (pstr "joindate")
      = resolve { className := pstr "Topic", data := [(pstr "ts", .num 1609459200000)],
                  aliases := [(pstr "x", pstr "y")] } (pstr "ts") :=
  C2_coerce_idempotent_pure.2 _ _ _ _ (.num 1609459200000) rfl rfl

set_option maxRecDepth 4000 in
/-- Counterexample to claim C3 as stated: `"9000000000001"` is a
thirteen-digit all-digit string, but the IEEE double
`9000000000001 / 1000` lies 0.549 µs below the exact value and
`round(frac * 1e6)` lands on microsecond 999; `coerce` therefore
returns the instant one microsecond before `9000000000001` ms. -/
theorem C3_counterexample :
    pyIsDigit (pstr "9000000000001") = true ∧
    (pstr "9000000000001").length = 13 ∧
    coerce (.str (pstr "9000000000001")) = .time 9000000000000999 ∧
    (9000000000001 : Int) * 1000 = 9000000000001000 ∧
    JsonValue.time 9000000000000999 ≠ JsonValue.time 9000000000001000 := by
  refine ⟨by decide, by decide, by rfl, by decide, ?_⟩
  intro h
  injection h with h2
  exact absurd h2 (by decide)

set_option maxRecDepth 4000 in
/-- Claim C3 as amended: a value whose `str()` is thirteen decimal
digits coerces to `fromtimestamp(int(s) / 1000)` — the instant at
`parseInt(s)` milliseconds up to the one-microsecond rounding of the
two IEEE double operations, not always exactly (see the
counterexample); it is exactly that instant whenever the millisecond
value is divisible by 125 (the quotient is then a short dyadic and
both roundings are exact), which covers the spec's example:
`"1609459200000"` coerces to exactly the instant 2021-01-01T00:00:00Z. -/
theorem C3_millis_amended :
    (∀ v : JsonValue, pyIsDigit (pyStr v) = true → (pyStr v).length = 13 →
      coerce v = .time (pyFromtimestampUs (digitsToInt (pyStr v)))) ∧
    (∀ n : Nat, n ≤ 9999999999999 → n % 125 = 0 →
      pyFromtimestampUs n = (n : Int) * 1000) ∧
    coerce (.str (pstr "1609459200000")) = .time (utcInstantUs 2021 1 1 0 0 0 0) := by
  refine ⟨?_, ?_, ?_⟩
  · intro v h1 h2
    have hc : (pyIsDigit (pyStr v) && (pyStr v).length == 13) = true := by
      rw [h1, h2]
      rfl
    rw [coerce, if_pos hc]
  · intro n h1 h2
    exact pyFromtimestampUs_exact_of_div125 h1 h2
  · rfl

set_option maxRecDepth 4000 in
/-- Witness for the amended C3: a thirteen-digit JSON integer coerces
along the `fromtimestamp` path, and the whole-second spec example is
exact. -/
theorem C3_millis_amended_witness :
    pyIsDigit (pyStr (JsonValue.num 1234567890123)) = true ∧
    coerce (JsonValue.num 1234567890123)
      = .time (pyFromtimestampUs (digitsToInt (pyStr (JsonValue.num 1234567890123)))) ∧
    (1609459200000 : Nat) % 125 = 0 ∧
    pyFromtimestampUs 1609459200000 = (1609459200000 : Int) * 1000 :=
  ⟨by decide, C3_millis_amended.1 _ (by decide) (by decide),
   by decide, C3_millis_amended.2.1 1609459200000 (by decide) (by decide)⟩

/-- Counterexample to claim C4 as stated: the string
`"2021-01-01T00:00:00.5Z"` (one fractional digit, 22 characters, so
not of the exact 27-character shape `YYYY-MM-DDTHH:MM:SS.ffffffZ`) is
nevertheless accepted by `coerce` — CPython's `strptime` matches `%f`
against one to six digits — so the exact shape is not the only shape
accepted. -/
theorem C4_counterexample :
    coerce (.str (pstr "2021-01-01T00:00:00.5Z")) = .time 1609459200500000 ∧
    coerce (.str (pstr "2021-01-01T00:00:00.5Z")) ≠ .str (pstr "2021-01-01T00:00:00.5Z") ∧
    (pstr "2021-01-01T00:00:00.5Z").length = 22 := by
  refine ⟨rfl, ?_, rfl⟩
  intro h
  rw [show coerce (.str (pstr "2021-01-01T00:00:00.5Z")) = .time 1609459200500000
    from rfl] at h
  exact JsonValue.noConfusion h

/-- Claim C4 as amended: every string of the exact shape
`YYYY-MM-DDTHH:MM:SS.ffffffZ` (27 characters, in-range field values)
coerces to the corresponding UTC instant, and the string differing
only by omitting the fractional-seconds component is returned
unchanged; however this exact shape is not the only one accepted —
`strptime` also matches 1–6 fraction digits and unpadded fields (see
the counterexample). -/
theorem C4_iso_pattern_amended (y mo d h mi s f : Nat)
    (hy1 : 1 ≤ y) (hy : y ≤ 9999) (hmo1 : 1 ≤ mo) (hmo2 : mo ≤ 12)
    (hd1 : 1 ≤ d) (hd2 : d ≤ daysInMonth y mo)
    (hh : h ≤ 23) (hmi : mi ≤ 59) (hs : s ≤ 59) (hf : f ≤ 999999) :
    coerce (.str (isoRender y mo d h mi s f)) = .time (utcInstantUs y mo d h mi s f) ∧
    coerce (.str (isoRenderNoFrac y mo d h mi s)) = .str (isoRenderNoFrac y mo d h mi s) ∧
    (isoRender y mo d h mi s f).length = 27 := by
  refine ⟨coerce_isoRender y mo d h mi s f hy1 hy hmo1 hmo2 hd1 hd2 hh hmi hs hf,
    coerce_isoRenderNoFrac y mo d h mi s hy hmo1 hmo2 hd1
      (le_trans hd2 (daysInMonth_le_31 y mo)) hh hmi hs, ?_⟩
  simp [isoRender, pad4, pad2, pad6]

/-- Witness for the amended C4: the rendered shape at the fields of
2021-01-01T00:00:00Z is the literal pattern string, it coerces to that
instant, and the no-fraction variant is returned unchanged. -/
theorem C4_iso_pattern_amended_witness :
    isoRender 2021 1 1 0 0 0 0 = pstr "2021-01-01T00:00:00.000000Z" ∧
    coerce (.str (isoRender 2021 1 1 0 0 0 0)) = .time (utcInstantUs 2021 1 1 0 0 0 0) ∧
    coerce (.str (isoRenderNoFrac 2021 1 1 0 0 0)) = .str (isoRenderNoFrac 2021 1 1 0 0 0) :=
  ⟨by decide,
   (C4_iso_pattern_amended 2021 1 1 0 0 0 0 (by decide) (by decide) (by decide) (by decide)
     (by decide) (by decide) (by decide) (by decide) (by decide) (by decide)).1,
   (C4_iso_pattern_amended 2021 1 1 0 0 0 0 (by decide) (by decide) (by decide) (by decide)
     (by decide) (by decide) (by decide) (by decide) (by decide) (by decide)).2.1⟩

/-- The collaborator responses used to refute claim C5 as stated: the
key `"k"` is present in both documents, and the configuration's value
for it is a thirteen-digit integer. -/
def c5World : HttpWorld :=
  { poweredBy := some (pstr "NodeBB"),
    apiDoc := [(pstr "k", .str (pstr "x"))],
    configDoc := [(pstr "k", .num 1609459200000), (pstr "siteTitle", .str (pstr "T"))] }

set_option maxRecDepth 4000 in
/-- Counterexample to claim C5 as stated: with `"k"` present in both
documents, the configuration's value wins in the merged attribute
table, but the *resolved* attribute is the coercion of that value —
here a `datetime`, not the stored thirteen-digit integer — so the
resolved attribute does not equal the configuration document's value. -/
theorem C5_counterexample :
    alookup c5World.apiDoc (pstr "k") = some (.str (pstr "x")) ∧
    alookup c5World.configDoc (pstr "k") = some (.num 1609459200000) ∧
    (forumSetup (pstr "https://f/") c5World).1.toOption.map
      (fun fm => resolve fm.entity (pstr "k"))
      = some (some (.ok (.time 1609459200000000))) ∧
    JsonValue.time 1609459200000000 ≠ JsonValue.num 1609459200000 := by
  refine ⟨rfl, rfl, rfl, ?_⟩
  intro h
  exact JsonValue.noConfusion h

/-- Claim C5 as amended: for every key present in the configuration
document (which, as a parsed JSON object, has unique keys), the
Forum's stored attribute is the configuration's value — the
configuration wins over the front-page snapshot — and the *resolved*
attribute is `coerce` of that value (the merge itself never applies
coercion, resolution does; for non-coercible values such as the
`"config"` string of the spec's example the two coincide). -/
theorem C5_merge_amended (url : PyStr) (w : HttpWorld) (k : PyStr) (v title : JsonValue)
    (hpb : w.poweredBy = some (pstr "NodeBB"))
    (hst : alookup w.configDoc (pstr "siteTitle") = some title)
    (hnd : (w.configDoc.map Prod.fst).Nodup)
    (hk : alookup w.configDoc k = some v) :
    (forumSetup url w).1.toOption.map
      (fun fm => (alookup fm.entity.data k, resolve fm.entity k))
      = some (some v, some (.ok (coerce v))) := by
  have hlast : alookupLast w.configDoc k = some v := by
    rw [← alookup_eq_alookupLast_of_nodup hnd k]
    exact hk
  have hdata : alookup (pyDict (w.apiDoc ++ w.configDoc)) k = some v := by
    rw [alookup_pyDict]
    exact alookupLast_append_right _ hlast
  simp only [forumSetup, hpb, hst, ne_eq, not_true_eq_false, if_false, reduceIte,
    Except.toOption, Option.map_some']
  rw [hdata, resolve_data_hit _ hdata]

/-- Witness for the amended C5: the spec's own example — snapshot
`{"k": "snapshot"}`, configuration `{"k": "config"}` — stores and
resolves `"k"` to `"config"`. -/
theorem C5_merge_amended_witness :
    (forumSetup (pstr "https://f/")
        { poweredBy := some (pstr "NodeBB"),
          apiDoc := [(pstr "k", .str (pstr "snapshot"))],
          configDoc := [(pstr "k", .str (pstr "config")),
                        (pstr "siteTitle", .str (pstr "T"))] }).1.toOption.map
      (fun fm => (alookup fm.entity.data (pstr "k"), resolve fm.entity (pstr "k")))
      = some (some (.str (pstr "config")), some (.ok (.str (pstr "config")))) :=
  C5_merge_amended (pstr "https://f/") _ (pstr "k") (.str (pstr "config"))
    (.str (pstr "T")) rfl rfl (by decide) rfl

/-- Claim C6: when the HEAD response's `X-Powered-By` header is absent
or differs from the literal `"NodeBB"`, Forum construction fails with
`NotANodeBBForum`, the HEAD request is the only network call issued
(no GETs), and no Forum is produced. -/
theorem C6_head_check (url : PyStr) (w : HttpWorld)
    (h : w.poweredBy ≠ some (pstr "NodeBB")) :
    forumSetup url w = (.error .notANodeBBForum, [.head url]) := by
  unfold forumSetup
  rw [if_pos h]

/-- Witness for C6: a response with the header absent. -/
theorem C6_head_check_witness :
    forumSetup (pstr "https://example.org/")
        { poweredBy := none, apiDoc := [], configDoc := [] }
      = (.error .notANodeBBForum, [.head (pstr "https://example.org/")]) :=
  C6_head_check _ _ (by decide)

/-- Counterexample to claim C7 as stated: an entity whose attributes
*contain* `siteTitle ↦ "Example Forum"` but also contain a direct
`title` attribute; step 1 of the precedence then shadows the alias, so
`resolve(entity, "title")` is `"other"`, not `"Example Forum"`. -/
theorem C7_counterexample :
    resolve { className := pstr "Forum",
              data := [(pstr "title", .str (pstr "other")),
                       (pstr "siteTitle", .str (pstr "Example Forum"))],
              aliases := [(pstr "title", pstr "siteTitle")] } (pstr "title")
      = some (.ok (.str (pstr "other"))) ∧
    JsonValue.str (pstr "other") ≠ JsonValue.str (pstr "Example Forum") := by
  refine ⟨rfl, ?_⟩
  intro h
  injection h with h2
  exact absurd h2 (by decide)

/-- Claim C7 as amended: for every entity with alias
`{"title": "siteTitle"}`, attributes containing
`siteTitle ↦ "Example Forum"`, and **no direct `title` attribute**,
both `resolve(entity, "title")` and `resolve(entity, "siteTitle")`
succeed with `"Example Forum"`. -/
theorem C7_alias_roundtrip_amended (e : Entity)
    (hti : alookup e.data (pstr "title") = none)
    (hal : alookup e.aliases (pstr "title") = some (pstr "siteTitle"))
    (hst : alookup e.data (pstr "siteTitle") = some (.str (pstr "Example Forum"))) :
    resolve e (pstr "title") = some (.ok (.str (pstr "Example Forum"))) ∧
    resolve e (pstr "siteTitle") = some (.ok (.str (pstr "Example Forum"))) := by
  have hco : coerce (.str (pstr "Example Forum")) = .str (pstr "Example Forum") := rfl
  have h2 : resolve e (pstr "siteTitle") = some (.ok (.str (pstr "Example Forum"))) := by
    rw [resolve_data_hit e hst, hco]
  exact ⟨by rw [resolve_alias e hti hal]; exact h2, h2⟩

/-- Witness for the amended C7: the Forum-shaped entity of the spec's
example. -/
theorem C7_alias_roundtrip_amended_witness :
    resolve { className := pstr "Forum",
              data := [(pstr "siteTitle", .str (pstr "Example Forum"))],
              aliases := [(pstr "title", pstr "siteTitle")] } (pstr "title")
      = some (.ok (.str (pstr "Example Forum"))) ∧
    resolve { className := pstr "Forum",
              data := [(pstr "siteTitle", .str (pstr "Example Forum"))],
              aliases := [(pstr "title", pstr "siteTitle")] } (pstr "siteTitle")
      = some (.ok (.str (pstr "Example Forum"))) :=
  C7_alias_roundtrip_amended _ rfl rfl rfl

/-- Claim C8: a key present neither in the entity's attributes nor in
its alias table makes `resolve` fail with `AttributeNotFound`,
surfaced directly, and with no other possible outcome (the equation
pins the result). -/
theorem C8_unknown_key (e : Entity) (k : PyStr)
    (hd : alookup e.data k = none) (ha : alookup e.aliases k = none) :
    resolve e k = some (.error (.attributeNotFound e.className k)) :=
  resolve_miss e hd ha

/-- Witness for C8: `resolve(entity, "doesNotExist")` on a
Forum-shaped entity. -/
theorem C8_unknown_key_witness :
    resolve { className := pstr "Forum",
              data := [(pstr "siteTitle", .str (pstr "T"))],
              aliases := [(pstr "title", pstr "siteTitle")] } (pstr "doesNotExist")
      = some (.error (.attributeNotFound (pstr "Forum") (pstr "doesNotExist"))) :=
  C8_unknown_key _ _ rfl rfl

/-- Claim C9: when the alias table is single-hop — every alias target
is a key of the attribute map, as every entity variant in the source
declares — `resolve` terminates (returns `some`) for every key; and
for violating tables termination is not guaranteed: the self-aliasing
entity diverges at every fuel, so `resolve` reports `none`. -/
theorem C9_termination :
    (∀ e : Entity,
      (∀ a t, alookup e.aliases a = some t → (alookup e.data t).isSome = true) →
      ∀ k, (resolve e k).isSome = true) ∧
    (∀ n, resolveF cyclicEntity n (pstr "a") = none) ∧
    resolve cyclicEntity (pstr "a") = none := by
  have hcyc : ∀ n, resolveF cyclicEntity n (pstr "a") = none := by
    intro n
    induction n with
    | zero => rfl
    | succ n ih =>
      rw [resolveF]
      rw [show alookup cyclicEntity.data (pstr "a") = none from rfl]
      rw [show alookup cyclicEntity.aliases (pstr "a") = some (pstr "a") from rfl]
      exact ih
  refine ⟨?_, hcyc, hcyc _⟩
  intro e hsh k
  unfold resolve
  rw [resolveF]
  cases hd : alookup e.data k with
  | some v => rfl
  | none =>
    cases ha : alookup e.aliases k with
    | none => rfl
    | some t =>
      obtain ⟨L', hL⟩ : ∃ L', e.aliases.length = L' + 1 := by
        cases hgg : e.aliases with
        | nil => rw [hgg] at ha; exact Option.noConfusion ha
        | cons x xs => exact ⟨xs.length, by simp [hgg]⟩
      obtain ⟨v, hv⟩ := Option.isSome_iff_exists.mp (hsh k t ha)
      show (resolveF e e.aliases.length t).isSome = true
      rw [hL, resolveF, hv]
      rfl

/-- Witness for C9: a single-hop Forum-shaped entity resolves every
key, exercised at an undeclared key (which resolves to the
`AttributeNotFound` outcome, still a terminating `some`). -/
theorem C9_termination_witness :
    (resolve { className := pstr "Forum",
               data := [(pstr "siteTitle", .str (pstr "T"))],
               aliases := [(pstr "title", pstr "siteTitle")] } (pstr "anyKey")).isSome
      = true := by
  refine C9_termination.1 _ ?_ _
  intro a t h
  rw [alookup] at h
  by_cases hx : pstr "title" = a
  · rw [if_pos hx] at h
    injection h with h2
    subst h2
    rfl
  · rw [if_neg hx] at h
    exact Option.noConfusion h

/-- Claim C10 (implicit): when the requested key is an alias whose
canonical target is itself absent from both tables, the
`AttributeNotFound` error names the canonical target key, not the
originally requested alias key. -/
theorem C10_alias_error_names_target (e : Entity) (k t : PyStr)
    (hdk : alookup e.data k = none) (hak : alookup e.aliases k = some t)
    (hdt : alookup e.data t = none) (hat : alookup e.aliases t = none) :
    resolve e k = some (.error (.attributeNotFound e.className t)) := by
  rw [resolve_alias e hdk hak]
  exact resolve_miss e hdt hat

/-- Witness for C10: an entity with `title → siteTitle` declared but
no `siteTitle` attribute; the error names `siteTitle`. -/
theorem C10_alias_error_names_target_witness :
    resolve { className := pstr "Forum", data := [],
              aliases := [(pstr "title", pstr "siteTitle")] } (pstr "title")
      = some (.error (.attributeNotFound (pstr "Forum") (pstr "siteTitle"))) :=
  C10_alias_error_names_target _ (pstr "title") (pstr "siteTitle") rfl rfl rfl rfl
